import Mathlib

/-!
Shallow embedding of the countdown-timer widget implemented in
`src/src/App.tsx`.  The widget state consists of the remaining duration
(`TimeState`), the two status booleans `isRunning` / `isCompleted`, the
visual alert flag `showAlert` and the raw input string `inputValue`.
The Notifier (beep + alert) is modelled by the `showAlert` flag together
with a counter `beeps` of how many times the beep has been played.

JavaScript numbers appearing here are mathematical integers (the widget
only ever produces integers), so fields are modelled as `Int`.  String
primitives used by the source (`split(':')`, `trim()`, `parseInt`,
`toString`, `padStart`) are modelled explicitly on character lists so
that every definition is executable by the kernel.
-/

/-- The `TimeState` interface of `App.tsx`: `{hours, minutes, seconds}`. -/
structure TimeState where
  hours : Int
  minutes : Int
  seconds : Int
deriving DecidableEq, Repr

/-- JavaScript `String.prototype.split(':')` on a character list:
splits on every occurrence of `':'`, keeping empty parts
(`"".split(':')` is `[""]`, `":".split(':')` is `["", ""]`). -/
def splitOnColon : List Char → List (List Char)
  | [] => [[]]
  | c :: rest =>
    if c = ':' then [] :: splitOnColon rest
    else
      match splitOnColon rest with
      | p :: ps => (c :: p) :: ps
      | [] => [[c]]

/-- JavaScript `String.prototype.trim()`: drop whitespace from both ends
(modelled with ASCII whitespace, which covers every input the widget
handles). -/
def trimChars (cs : List Char) : List Char :=
  ((cs.dropWhile Char.isWhitespace).reverse.dropWhile Char.isWhitespace).reverse

/-- Value of a character as a digit in radix up to 16, as used by
JavaScript `parseInt`. -/
def hexDigitValue (c : Char) : Option Nat :=
  if '0' ≤ c ∧ c ≤ '9' then some (c.toNat - '0'.toNat)
  else if 'a' ≤ c ∧ c ≤ 'f' then some (c.toNat - 'a'.toNat + 10)
  else if 'A' ≤ c ∧ c ≤ 'F' then some (c.toNat - 'A'.toNat + 10)
  else none

/-- Value of a character as a digit in the given radix (`10` or `16`),
`none` if the character is not a digit of that radix. -/
def digitValueInRadix (radix : Nat) (c : Char) : Option Nat :=
  match hexDigitValue c with
  | some d => if d < radix then some d else none
  | none => none

/-- Accumulate the maximal prefix of digits in the given radix, as
JavaScript `parseInt` does (it stops at the first invalid character). -/
def parseDigitsAcc (radix : Nat) (acc : Nat) : List Char → Nat
  | [] => acc
  | c :: cs =>
    match digitValueInRadix radix c with
    | some d => parseDigitsAcc radix (acc * radix + d) cs
    | none => acc

/-- Sign handling of JavaScript `parseInt`: an optional leading `-` or
`+` before the digits. -/
def jsStripSign : List Char → Int × List Char
  | '-' :: rest => (-1, rest)
  | '+' :: rest => (1, rest)
  | cs => (1, cs)

/-- Radix detection of JavaScript `parseInt` with no radix argument: a
`0x`/`0X` prefix selects radix 16, anything else radix 10. -/
def jsStripHex : List Char → Nat × List Char
  | '0' :: 'x' :: rest => (16, rest)
  | '0' :: 'X' :: rest => (16, rest)
  | cs => (10, cs)

/-- JavaScript `parseInt(s)` (no radix argument): skip leading
whitespace, read an optional sign, detect a `0x`/`0X` hex prefix, then
parse the maximal digit prefix; `none` models `NaN` (no digit found). -/
def jsParseInt (s : List Char) : Option Int :=
  let cs := s.dropWhile Char.isWhitespace
  let signAndRest := jsStripSign cs
  let radixAndRest := jsStripHex signAndRest.2
  match radixAndRest.2 with
  | c :: _ =>
    match digitValueInRadix radixAndRest.1 c with
    | some _ =>
        some (signAndRest.1 * (parseDigitsAcc radixAndRest.1 0 radixAndRest.2 : Nat))
    | none => none
  | [] => none

/-- The per-part coercion of `parseTimeInput`:
`parseInt(part.trim()) || 0`, i.e. `NaN` coerces to `0`. -/
def parseIntOr0 (part : List Char) : Int :=
  (jsParseInt (trimChars part)).getD 0

/-- The `parseTimeInput` function of `App.tsx`: split the input on
`':'`, coerce each part with `parseInt(part.trim()) || 0`, then
dispatch on the number of parts. -/
def parseTimeInput (input : String) : TimeState :=
  let parts := (splitOnColon input.toList).map parseIntOr0
  match parts with
  | [m, s] => { hours := 0, minutes := m, seconds := s }
  | [h, m, s] => { hours := h, minutes := m, seconds := s }
  | _ => { hours := 0, minutes := 0, seconds := 0 }

/-- Decimal digits of a natural number, fuelled so the recursion is
structural (the fuel `n + 1` always suffices). -/
def natDigitsAux : Nat → Nat → List Char
  | 0, _ => []
  | fuel + 1, n =>
    if n < 10 then [Char.ofNat ('0'.toNat + n)]
    else natDigitsAux fuel (n / 10) ++ [Char.ofNat ('0'.toNat + n % 10)]

/-- JavaScript `Number.prototype.toString()` for integer values. -/
def intToChars (i : Int) : List Char :=
  if i < 0 then '-' :: natDigitsAux (i.natAbs + 1) i.natAbs
  else natDigitsAux (i.toNat + 1) i.toNat

/-- JavaScript `String.prototype.padStart(len, c)`. -/
def padStartChars (cs : List Char) (len : Nat) (c : Char) : List Char :=
  if cs.length < len then List.replicate (len - cs.length) c ++ cs else cs

/-- A field of the display: `n.toString().padStart(2, '0')`. -/
def pad2 (i : Int) : List Char :=
  padStartChars (intToChars i) 2 '0'

/-- The `formatTime` function of `App.tsx`: `HH:MM:SS` when
`hours > 0`, else `MM:SS`, each field zero-padded to two digits. -/
def formatTime (t : TimeState) : String :=
  if t.hours > 0 then
    String.mk (pad2 t.hours ++ ':' :: pad2 t.minutes ++ ':' :: pad2 t.seconds)
  else
    String.mk (pad2 t.minutes ++ ':' :: pad2 t.seconds)

/-- Full widget state: the five React state variables of
`CountdownTimer` plus a counter of Notifier beep invocations. -/
structure TimerState where
  time : TimeState
  isRunning : Bool
  isCompleted : Bool
  showAlert : Bool
  inputValue : String
  beeps : Nat
deriving DecidableEq, Repr

/-- The initial state of the widget: 5 minutes, idle, input `"05:00"`. -/
def initialState : TimerState :=
  { time := { hours := 0, minutes := 5, seconds := 0 }
    isRunning := false
    isCompleted := false
    showAlert := false
    inputValue := "05:00"
    beeps := 0 }

/-- One firing of the interval callback.  The interval is armed exactly
when `isRunning && !isCompleted` (the `useEffect` dependency guard), so
in any other state a clock second passes with no state change.  While
armed, the callback: at `{0,0,0}` stops, completes, shows the alert and
plays the beep, leaving the time unchanged; otherwise it decrements the
time by one second with borrow arithmetic. -/
def tick (st : TimerState) : TimerState :=
  if st.isRunning = true ∧ st.isCompleted = false then
    if st.time.hours = 0 ∧ st.time.minutes = 0 ∧ st.time.seconds = 0 then
      { st with isRunning := false, isCompleted := true, showAlert := true,
                beeps := st.beeps + 1 }
    else if st.time.seconds > 0 then
      { st with time := { st.time with seconds := st.time.seconds - 1 } }
    else if st.time.minutes > 0 then
      { st with time := { st.time with minutes := st.time.minutes - 1, seconds := 59 } }
    else if st.time.hours > 0 then
      { st with time := { hours := st.time.hours - 1, minutes := 59, seconds := 59 } }
    else st
  else st

/-- The time-arithmetic part of the interval callback alone, as a pure
function on durations: the zero check followed by the borrow-arithmetic
decrement, with the fall-through returning the time unchanged. -/
def tickTime (t : TimeState) : TimeState :=
  if t.hours = 0 ∧ t.minutes = 0 ∧ t.seconds = 0 then t
  else if t.seconds > 0 then { t with seconds := t.seconds - 1 }
  else if t.minutes > 0 then { t with minutes := t.minutes - 1, seconds := 59 }
  else if t.hours > 0 then { hours := t.hours - 1, minutes := 59, seconds := 59 }
  else t

/-- The `handleStart` handler: return early when the time is
`{0,0,0}`, otherwise set running and clear completed. -/
def handleStart (st : TimerState) : TimerState :=
  if st.time.hours = 0 ∧ st.time.minutes = 0 ∧ st.time.seconds = 0 then st
  else { st with isRunning := true, isCompleted := false }

/-- The `handlePause` handler: `setIsRunning(false)`. -/
def handlePause (st : TimerState) : TimerState :=
  { st with isRunning := false }

/-- The `handleReset` handler: stop, clear completed and the alert, and
re-derive the time from the current input string. -/
def handleReset (st : TimerState) : TimerState :=
  { st with isRunning := false, isCompleted := false, showAlert := false,
            time := parseTimeInput st.inputValue }

/-- The `handleInputChange` handler: `setInputValue(value)` happens
unconditionally; the parse into the time and the clearing of
`isCompleted` happen only when not running. -/
def handleInputChange (value : String) (st : TimerState) : TimerState :=
  if st.isRunning = false then
    { st with inputValue := value, time := parseTimeInput value, isCompleted := false }
  else
    { st with inputValue := value }

/-- The `handlePreset` handler: when not running, set the time to
`{0, minutes, 0}`, mirror it into the input string, and clear
completed; when running, do nothing. -/
def handlePreset (minutes : Int) (st : TimerState) : TimerState :=
  if st.isRunning = false then
    let newTime : TimeState := { hours := 0, minutes := minutes, seconds := 0 }
    { st with time := newTime, inputValue := formatTime newTime, isCompleted := false }
  else st

/-- One user- or timer-initiated transition of the widget. -/
inductive Step : TimerState → TimerState → Prop where
  | doStart (s : TimerState) : Step s (handleStart s)
  | doPause (s : TimerState) : Step s (handlePause s)
  | doReset (s : TimerState) : Step s (handleReset s)
  | doTick (s : TimerState) : Step s (tick s)
  | doPreset (s : TimerState) (m : Int) : Step s (handlePreset m s)
  | doInput (s : TimerState) (v : String) : Step s (handleInputChange v s)

/-- States reachable from the initial state by any sequence of
operations. -/
inductive Reachable : TimerState → Prop where
  | init : Reachable initialState
  | next {s t : TimerState} : Reachable s → Step s t → Reachable t

example : parseTimeInput "05:00" = { hours := 0, minutes := 5, seconds := 0 } := by decide
example : parseTimeInput "1:02:03" = { hours := 1, minutes := 2, seconds := 3 } := by decide
example : parseTimeInput "abc" = { hours := 0, minutes := 0, seconds := 0 } := by decide
example : parseTimeInput "" = { hours := 0, minutes := 0, seconds := 0 } := by decide
example : formatTime { hours := 0, minutes := 5, seconds := 0 } = "05:00" := by decide
example : formatTime { hours := 1, minutes := 0, seconds := 0 } = "01:00:00" := by decide
example : tickTime { hours := 0, minutes := 1, seconds := 0 } = { hours := 0, minutes := 0, seconds := 59 } := by decide

lemma tickTime_preserves_nonneg {t : TimeState}
    (hh : 0 ≤ t.hours) (hm : 0 ≤ t.minutes) (hs : 0 ≤ t.seconds) :
    0 ≤ (tickTime t).hours ∧ 0 ≤ (tickTime t).minutes ∧ 0 ≤ (tickTime t).seconds := by
  rcases t with ⟨h, m, s⟩
  simp only [tickTime] at *
  split_ifs <;> simp_all <;> omega

/-- C1: while Running (and not Completed), one tick on a duration
other than `{0,0,0}` with non-negative fields decrements it by one
second using borrow arithmetic: if seconds > 0 decrement seconds; else
if minutes > 0 decrement minutes and set seconds to 59; else decrement
hours and set minutes and seconds to 59. -/
theorem tick_decrements_running (st : TimerState)
    (hrun : st.isRunning = true) (hcomp : st.isCompleted = false)
    (hh : 0 ≤ st.time.hours) (hm : 0 ≤ st.time.minutes) (hs : 0 ≤ st.time.seconds)
    (hnz : st.time ≠ { hours := 0, minutes := 0, seconds := 0 }) :
    (tick st).time =
      (if 0 < st.time.seconds then
        { st.time with seconds := st.time.seconds - 1 }
      else if 0 < st.time.minutes then
        { st.time with minutes := st.time.minutes - 1, seconds := 59 }
      else
        { hours := st.time.hours - 1, minutes := 59, seconds := 59 }) := by
  rcases st with ⟨⟨h, m, s⟩, run, comp, alert, inp, bps⟩
  simp only at hrun hcomp hh hm hs hnz
  subst hrun hcomp
  simp only [ne_eq, TimeState.mk.injEq, not_and] at hnz
  simp only [tick]
  split_ifs <;> (simp_all [TimeState.mk.injEq]; try omega)

/-- C1 witness: from the running state at `{0,1,0}` one tick yields
`{0,0,59}`. -/
theorem tick_decrements_running_witness :
    (tick { time := { hours := 0, minutes := 1, seconds := 0 },
            isRunning := true, isCompleted := false, showAlert := false,
            inputValue := "01:00", beeps := 0 }).time =
      { hours := 0, minutes := 0, seconds := 59 } := by
  have h := tick_decrements_running
    { time := { hours := 0, minutes := 1, seconds := 0 },
      isRunning := true, isCompleted := false, showAlert := false,
      inputValue := "01:00", beeps := 0 }
    rfl rfl (by decide) (by decide) (by decide) (by decide)
  exact h.trans (by decide)

/-- C2: while Running, a tick at `{0,0,0}` does not decrement: it
clears Running, sets Completed, fires the Notifier exactly once (alert
shown, beep count incremented by one) and leaves the duration at
`{0,0,0}`; and from `{0,0,1}` one tick yields `{0,0,0}` still Running
with no Notifier firing, the next tick completing. -/
theorem tick_completes_at_zero (st : TimerState)
    (hrun : st.isRunning = true) (hcomp : st.isCompleted = false) :
    (st.time = { hours := 0, minutes := 0, seconds := 0 } →
      tick st = { st with isRunning := false, isCompleted := true,
                          showAlert := true, beeps := st.beeps + 1 }) ∧
    (st.time = { hours := 0, minutes := 0, seconds := 1 } →
      (tick st).time = { hours := 0, minutes := 0, seconds := 0 } ∧
      (tick st).isRunning = true ∧ (tick st).isCompleted = false ∧
      (tick st).beeps = st.beeps ∧
      tick (tick st) =
        { st with time := { hours := 0, minutes := 0, seconds := 0 },
                  isRunning := false, isCompleted := true,
                  showAlert := true, beeps := st.beeps + 1 }) := by
  rcases st with ⟨⟨h, m, s⟩, run, comp, alert, inp, bps⟩
  simp only at hrun hcomp
  subst hrun hcomp
  constructor
  · intro ht
    simp only [TimeState.mk.injEq] at ht
    obtain ⟨rfl, rfl, rfl⟩ := ht
    simp [tick]
  · intro ht
    simp only [TimeState.mk.injEq] at ht
    obtain ⟨rfl, rfl, rfl⟩ := ht
    simp [tick]

/-- C2 witness: instantiation at the concrete running state with one
second left. -/
theorem tick_completes_at_zero_witness :
    (tick { time := { hours := 0, minutes := 0, seconds := 1 },
            isRunning := true, isCompleted := false, showAlert := false,
            inputValue := "00:01", beeps := 0 }).time =
      { hours := 0, minutes := 0, seconds := 0 } :=
  ((tick_completes_at_zero
    { time := { hours := 0, minutes := 0, seconds := 1 },
      isRunning := true, isCompleted := false, showAlert := false,
      inputValue := "00:01", beeps := 0 }
    rfl rfl).2 rfl).1

/-- C10: a tick on a duration with non-negative fields yields
non-negative fields, repeated ticks never go below zero, and the
countdown stops at `{0,0,0}`. -/
theorem tickTime_nonneg (t : TimeState)
    (hh : 0 ≤ t.hours) (hm : 0 ≤ t.minutes) (hs : 0 ≤ t.seconds) :
    (0 ≤ (tickTime t).hours ∧ 0 ≤ (tickTime t).minutes ∧ 0 ≤ (tickTime t).seconds) ∧
    (∀ n : Nat, 0 ≤ (tickTime^[n] t).hours ∧ 0 ≤ (tickTime^[n] t).minutes ∧
      0 ≤ (tickTime^[n] t).seconds) ∧
    tickTime { hours := 0, minutes := 0, seconds := 0 } =
      { hours := 0, minutes := 0, seconds := 0 } := by
  refine ⟨tickTime_preserves_nonneg hh hm hs, ?_, by decide⟩
  intro n
  induction n with
  | zero => exact ⟨hh, hm, hs⟩
  | succ k ih =>
      rw [Function.iterate_succ_apply']
      exact tickTime_preserves_nonneg ih.1 ih.2.1 ih.2.2

/-- C10 witness: instantiation at `{0,1,0}`. -/
theorem tickTime_nonneg_witness :
    0 ≤ (tickTime { hours := 0, minutes := 1, seconds := 0 }).hours ∧
    0 ≤ (tickTime { hours := 0, minutes := 1, seconds := 0 }).minutes ∧
    0 ≤ (tickTime { hours := 0, minutes := 1, seconds := 0 }).seconds :=
  (tickTime_nonneg { hours := 0, minutes := 1, seconds := 0 }
    (by decide) (by decide) (by decide)).1

/-- C4: Start on `{0,0,0}` leaves the state entirely unchanged; Start
on a non-zero duration while not Running sets Running, clears
Completed, and changes nothing else (in particular not the duration). -/
theorem handleStart_guard (st : TimerState) :
    (st.time = { hours := 0, minutes := 0, seconds := 0 } → handleStart st = st) ∧
    (st.time ≠ { hours := 0, minutes := 0, seconds := 0 } → st.isRunning = false →
      handleStart st = { st with isRunning := true, isCompleted := false }) := by
  constructor
  · intro ht
    rcases st with ⟨⟨h, m, s⟩, run, comp, alert, inp, bps⟩
    simp only [TimeState.mk.injEq] at ht
    obtain ⟨rfl, rfl, rfl⟩ := ht
    simp [handleStart]
  · intro ht _
    rcases st with ⟨⟨h, m, s⟩, run, comp, alert, inp, bps⟩
    simp only [ne_eq, TimeState.mk.injEq, not_and] at ht
    simp only [handleStart]
    split_ifs with hz
    · exact absurd hz (by tauto)
    · rfl

/-- C4 witness: Start on the idle zero state is a no-op, and Start on
the initial (five-minute, idle) state starts it. -/
theorem handleStart_guard_witness :
    handleStart { time := { hours := 0, minutes := 0, seconds := 0 },
                  isRunning := false, isCompleted := false, showAlert := false,
                  inputValue := "0:00", beeps := 0 } =
      { time := { hours := 0, minutes := 0, seconds := 0 },
        isRunning := false, isCompleted := false, showAlert := false,
        inputValue := "0:00", beeps := 0 } ∧
    handleStart initialState = { initialState with isRunning := true, isCompleted := false } :=
  ⟨(handleStart_guard _).1 rfl, (handleStart_guard initialState).2 (by decide) rfl⟩

/-- C5: Reset always clears Running, Completed and the alert, sets the
duration to the parse of the stored input string, and leaves the stored
input string itself unchanged. -/
theorem handleReset_spec (st : TimerState) :
    (handleReset st).isRunning = false ∧
    (handleReset st).isCompleted = false ∧
    (handleReset st).showAlert = false ∧
    (handleReset st).time = parseTimeInput st.inputValue ∧
    (handleReset st).inputValue = st.inputValue := by
  simp [handleReset]

/-- C8: Pause while not Running is a no-op; Pause while Running
transitions to not-Running and changes nothing else (in particular not
the duration); and Pause is idempotent. -/
theorem handlePause_spec (st : TimerState) :
    (st.isRunning = false → handlePause st = st) ∧
    (st.isRunning = true →
      handlePause st = { st with isRunning := false } ∧
      (handlePause st).time = st.time) ∧
    handlePause (handlePause st) = handlePause st := by
  refine ⟨?_, fun _ => ⟨rfl, rfl⟩, rfl⟩
  intro h
  rcases st with ⟨t, run, comp, alert, inp, bps⟩
  simp only at h
  subst h
  rfl

/-- C8 witness: Pause on the idle initial state is a no-op, and two
Pauses starting there equal one. -/
theorem handlePause_spec_witness :
    handlePause initialState = initialState ∧
    handlePause (handlePause initialState) = handlePause initialState :=
  ⟨(handlePause_spec initialState).1 rfl, (handlePause_spec initialState).2.2⟩

/-- C7: the display is `MM:SS` (two-digit zero-padded fields) when
hours = 0 and `HH:MM:SS` when hours ≠ 0, for any duration with
non-negative hours; in particular `{0,5,0}` formats to `"05:00"` and
`{1,0,0}` to `"01:00:00"`. -/
theorem formatTime_spec (t : TimeState) (hh : 0 ≤ t.hours) :
    (t.hours = 0 →
      formatTime t = String.mk (pad2 t.minutes ++ ':' :: pad2 t.seconds)) ∧
    (t.hours ≠ 0 →
      formatTime t =
        String.mk (pad2 t.hours ++ ':' :: pad2 t.minutes ++ ':' :: pad2 t.seconds)) ∧
    formatTime { hours := 0, minutes := 5, seconds := 0 } = "05:00" ∧
    formatTime { hours := 1, minutes := 0, seconds := 0 } = "01:00:00" := by
  refine ⟨?_, ?_, by decide, by decide⟩
  · intro h0
    simp [formatTime, h0]
  · intro hne
    have hpos : 0 < t.hours := lt_of_le_of_ne hh (Ne.symm hne)
    simp [formatTime, hpos]

/-- C7 witness: instantiation at `{0,5,0}`. -/
theorem formatTime_spec_witness :
    formatTime { hours := 0, minutes := 5, seconds := 0 } =
      String.mk (pad2 (5 : Int) ++ ':' :: pad2 (0 : Int)) :=
  (formatTime_spec { hours := 0, minutes := 5, seconds := 0 } (by decide)).1 rfl

example : jsParseInt "  -42xy".toList = some (-42) := by decide
example : jsParseInt "0x1A".toList = some 26 := by decide
example : jsParseInt "abc".toList = none := by decide
example : jsParseInt "+7".toList = some 7 := by decide
example : jsParseInt "0x".toList = none := by decide

lemma digitValueInRadix10_none {c : Char} (h : ¬('0' ≤ c ∧ c ≤ '9')) :
    digitValueInRadix 10 c = none := by
  by_cases h2 : 'a' ≤ c ∧ c ≤ 'f'
  · have hx : ¬ (c.toNat - 'a'.toNat + 10 < 10) := by omega
    simp [digitValueInRadix, hexDigitValue, h, h2, hx]
  by_cases h3 : 'A' ≤ c ∧ c ≤ 'F'
  · have hx : ¬ (c.toNat - 'A'.toNat + 10 < 10) := by omega
    simp [digitValueInRadix, hexDigitValue, h, h2, h3, hx]
  · simp [digitValueInRadix, hexDigitValue, h, h2, h3]

lemma jsStripSign_snd_subset (cs : List Char) : ∀ x ∈ (jsStripSign cs).2, x ∈ cs := by
  unfold jsStripSign
  split <;> intro x hx <;> simp_all

lemma jsStripHex_of_no_digit (cs : List Char) (h : ∀ x ∈ cs, ¬('0' ≤ x ∧ x ≤ '9')) :
    jsStripHex cs = (10, cs) := by
  unfold jsStripHex
  split
  · have := h '0' (by simp_all)
    simp at this
  · have := h '0' (by simp_all)
    simp at this
  · rfl

lemma jsParseInt_none_of_no_digit (q : List Char)
    (hq : ∀ c ∈ q, ¬('0' ≤ c ∧ c ≤ '9')) : jsParseInt q = none := by
  have hd : ∀ c ∈ q.dropWhile Char.isWhitespace, ¬('0' ≤ c ∧ c ≤ '9') :=
    fun c hc => hq c ((List.dropWhile_sublist _).subset hc)
  have hsign : ∀ c ∈ (jsStripSign (q.dropWhile Char.isWhitespace)).2, ¬('0' ≤ c ∧ c ≤ '9') :=
    fun c hc => hd c (jsStripSign_snd_subset _ c hc)
  simp only [jsParseInt, jsStripHex_of_no_digit _ hsign]
  rcases hr : (jsStripSign (q.dropWhile Char.isWhitespace)).2 with _ | ⟨c, rest⟩
  · rfl
  · rw [hr] at hsign
    have hnone : digitValueInRadix 10 c = none := digitValueInRadix10_none (hsign c (by simp))
    simp [hnone]

lemma parseIntOr0_eq_zero_of_no_digit (p : List Char)
    (h : ∀ c ∈ trimChars p, ¬('0' ≤ c ∧ c ≤ '9')) : parseIntOr0 p = 0 := by
  simp [parseIntOr0, jsParseInt_none_of_no_digit _ h]

/-- C3: for every input string, the parser splits on `':'` and coerces
the parts to numbers, with a part consisting only of non-digit
characters (in particular the empty part) coercing to 0; with exactly 2
parts the result is `{0, part0, part1}`, with exactly 3 parts
`{part0, part1, part2}`, and with any other part count `{0,0,0}`;
`"05:00"`, `"1:02:03"`, `"abc"` and `""` parse as the spec lists, and
the parser is a total function (no error is ever raised). -/
theorem parseTimeInput_spec (input : String) :
    (((splitOnColon input.toList).map parseIntOr0).length = 2 →
      parseTimeInput input =
        { hours := 0,
          minutes := ((splitOnColon input.toList).map parseIntOr0).getD 0 0,
          seconds := ((splitOnColon input.toList).map parseIntOr0).getD 1 0 }) ∧
    (((splitOnColon input.toList).map parseIntOr0).length = 3 →
      parseTimeInput input =
        { hours := ((splitOnColon input.toList).map parseIntOr0).getD 0 0,
          minutes := ((splitOnColon input.toList).map parseIntOr0).getD 1 0,
          seconds := ((splitOnColon input.toList).map parseIntOr0).getD 2 0 }) ∧
    (((splitOnColon input.toList).map parseIntOr0).length ≠ 2 →
      ((splitOnColon input.toList).map parseIntOr0).length ≠ 3 →
      parseTimeInput input = { hours := 0, minutes := 0, seconds := 0 }) ∧
    (∀ p ∈ splitOnColon input.toList,
      (∀ c ∈ trimChars p, ¬('0' ≤ c ∧ c ≤ '9')) → parseIntOr0 p = 0) ∧
    parseTimeInput "05:00" = { hours := 0, minutes := 5, seconds := 0 } ∧
    parseTimeInput "1:02:03" = { hours := 1, minutes := 2, seconds := 3 } ∧
    parseTimeInput "abc" = { hours := 0, minutes := 0, seconds := 0 } ∧
    parseTimeInput "" = { hours := 0, minutes := 0, seconds := 0 } := by
  refine ⟨?_, ?_, ?_, fun p _ h => parseIntOr0_eq_zero_of_no_digit p h,
    by decide, by decide, by decide, by decide⟩ <;>
  · rcases hp : (splitOnColon input.toList).map parseIntOr0 with _ | ⟨a, _ | ⟨b, _ | ⟨c, tail⟩⟩⟩ <;>
      simp_all [parseTimeInput]

/-- C3 witness: the two-part case instantiated at `"05:00"`. -/
theorem parseTimeInput_spec_witness :
    parseTimeInput "05:00" =
      { hours := 0,
        minutes := ((splitOnColon "05:00".toList).map parseIntOr0).getD 0 0,
        seconds := ((splitOnColon "05:00".toList).map parseIntOr0).getD 1 0 } :=
  (parseTimeInput_spec "05:00").1 (by decide)

/-- C6 counterexample: editing the input while Running is not a no-op
on the whole widget state — the stored input string is updated
unconditionally by `handleInputChange` (the guard only protects the
parse into the duration), so on the running state obtained by starting
the initial widget, an edit to `"1:00"` changes the state. -/
theorem inputChange_while_running_changes_state :
    handleInputChange "1:00" (handleStart initialState) ≠ handleStart initialState := by
  decide

/-- C6 amended: selecting a preset while Running is a complete no-op;
editing the input while Running updates only the stored input string to
the new value and leaves the duration, the status flags, the alert flag
and the beep count unchanged; the parse into the duration takes effect
only when not Running. -/
theorem preset_input_while_running (st : TimerState) (hrun : st.isRunning = true)
    (m : Int) (v : String) :
    handlePreset m st = st ∧
    handleInputChange v st = { st with inputValue := v } := by
  constructor
  · simp [handlePreset, hrun]
  · simp [handleInputChange, hrun]

/-- C6 witness: instantiation at the running state obtained by starting
the initial widget. -/
theorem preset_input_while_running_witness :
    handlePreset 1 (handleStart initialState) = handleStart initialState ∧
    handleInputChange "1:00" (handleStart initialState) =
      { handleStart initialState with inputValue := "1:00" } :=
  preset_input_while_running (handleStart initialState) (by decide) 1 "1:00"

/-- C9: in every state reachable from the initial state by Start,
Pause, Reset, Tick, preset selection and input editing, the `isRunning`
and `isCompleted` flags are never simultaneously true. -/
theorem running_completed_mutex (s : TimerState) (h : Reachable s) :
    ¬ (s.isRunning = true ∧ s.isCompleted = true) := by
  induction h with
  | init => simp [initialState]
  | next _ hstep ih =>
    cases hstep with
    | doStart =>
        simp only [handleStart]
        split_ifs <;> simp_all
    | doPause => simp [handlePause]
    | doReset => simp [handleReset]
    | doTick =>
        simp only [tick]
        split_ifs <;> simp_all
    | doPreset m =>
        simp only [handlePreset]
        split_ifs <;> simp_all
    | doInput v =>
        simp only [handleInputChange]
        split_ifs <;> simp_all

/-- C9 witness: the invariant instantiated at the (reachable) initial
state. -/
theorem running_completed_mutex_witness :
    ¬ (initialState.isRunning = true ∧ initialState.isCompleted = true) :=
  running_completed_mutex initialState Reachable.init
